import Mathlib

/-
Verification of the uni-gl dual-backend GL context layer.

The browser backend (src/webgl.rs) keeps a Resource Table mapping synthetic
integer handles to live JS objects, together with a next-handle counter.
The native backend (src/webgl_native.rs) is a thin pass-through over the C
OpenGL API.  Below, both backends are embedded shallowly: the Resource Table
becomes an association list over Int keys (mirroring the HashMap<i32, JsValue>),
stateful methods become explicit state-passing functions, calls into the
underlying graphics API are recorded as a list of call names, and panics
(Rust unwrap / panic) become Option / Except.
-/

namespace UniGLSpec

/-- Standard OpenGL error and format codes, as defined by the gl crate and
web_sys (external dependencies of the repository). -/
def NO_ERROR : Nat := 0
def INVALID_ENUM : Nat := 1280
def INVALID_VALUE : Nat := 1281
def INVALID_OPERATION : Nat := 1282
def STACK_OVERFLOW : Nat := 1283
def STACK_UNDERFLOW : Nat := 1284
def OUT_OF_MEMORY : Nat := 1285
def INVALID_FRAMEBUFFER_OPERATION : Nat := 1286
def CONTEXT_LOST_WEBGL : Nat := 37442
def DEPTH_COMPONENT16 : Nat := 33189

/-- Modelled from the spec: the glenum module (the fixed enum vocabulary,
section 4.1 of the spec) is not under src/; each constant maps one-to-one to
the standard backend-native integer code.  Only the pixel formats used by
tex_image2d are needed here; DepthComponent carries the standard code 6402. -/
inductive PixelFormat where
  | Rgb
  | Rgba
  | Alpha
  | Luminance
  | LuminanceAlpha
  | DepthComponent
deriving DecidableEq

def PixelFormat.code : PixelFormat → Nat
  | .Rgb => 6407
  | .Rgba => 6408
  | .Alpha => 6406
  | .Luminance => 6409
  | .LuminanceAlpha => 6410
  | .DepthComponent => 6402

/-- Modelled from the spec: texture parameter names from the missing glenum
module; TextureWrapR is the extended wrap parameter gated on WebGL2. -/
inductive TextureParameter where
  | TextureMagFilter
  | TextureMinFilter
  | TextureWrapS
  | TextureWrapT
  | TextureWrapR
deriving DecidableEq

/-- Interpretation of a usize value as the i32 it is cast to with `as i32`
(two's-complement wrap-around). -/
def i32_of_nat (n : Nat) : Int :=
  ((n : Int) + 2 ^ 31) % 2 ^ 32 - 2 ^ 31

/-- Interpretation of an i32 value as the u32 it is cast to with `as u32`. -/
def u32_of_i32 (x : Int) : Nat :=
  (x % 2 ^ 32).toNat

/-- Arguments of a DrawArrays call forwarded to the underlying graphics API:
primitive mode, first vertex index, vertex count. -/
structure DrawArraysCall where
  mode : Nat
  first : Int
  count : Int
deriving DecidableEq

/-- Arguments of a TexImage2D call forwarded to the underlying graphics API. -/
structure TexImage2dCall where
  target : Nat
  level : Nat
  internal_format : Nat
  width : Nat
  height : Nat
  border : Nat
  format : Nat
  pixel_kind : Nat
  has_pixels : Bool
deriving DecidableEq

namespace Web

/-- Kinds of live JS objects stored in the browser Resource Table.  The
constructor num stands for the dummy JsValue::from_f64(0.0) that
create_vertex_array stores on a WebGL1 context. -/
inductive JsVal where
  | buffer
  | shader
  | program
  | texture
  | framebuffer
  | vertexArray
  | uniformLoc
  | num
deriving DecidableEq

/-- Browser backend GLContext (src/webgl.rs): the WebGL2 capability flag, the
Resource Table dict : HashMap<i32, JsValue> (embedded as an association list
holding at most one entry per key, as a HashMap does), and the next-handle
counter seq. -/
structure GLContext where
  is_webgl2 : Bool
  dict : List (Int × JsVal)
  seq : Int
deriving DecidableEq

/-- Context state right after GLContext::new (dict empty, seq = 1). -/
def GLContext.initial (webgl2 : Bool) : GLContext :=
  ⟨webgl2, [], 1⟩

/-- GLContext::add — store a JS object under the next fresh handle and
return the handle.  HashMap::insert replaces any entry with the same key,
hence the filter. -/
def GLContext.add (s : GLContext) (v : JsVal) : GLContext × Int :=
  (⟨s.is_webgl2, (s.seq, v) :: s.dict.filter (fun p => !(p.1 == s.seq)), s.seq + 1⟩, s.seq)

/-- GLContext::get — look a handle up in the Resource Table. -/
def GLContext.get (s : GLContext) (id : Int) : Option JsVal :=
  (s.dict.find? (fun p => p.1 == id)).map (fun p => p.2)

/-- GLContext::remove — drop a handle from the Resource Table. -/
def GLContext.remove (s : GLContext) (id : Int) : GLContext :=
  ⟨s.is_webgl2, s.dict.filter (fun p => !(p.1 == id)), s.seq⟩

/-- Number of Resource Table entries stored under a handle. -/
def countKey (s : GLContext) (h : Int) : Nat :=
  (s.dict.filter (fun p => p.1 == h)).length

/-- GLContext::create_buffer — add the object returned by the underlying
create_buffer call and return the fresh handle. -/
def GLContext.create_buffer (s : GLContext) : GLContext × Int :=
  s.add .buffer

/-- GLContext::create_shader (underlying call returned Some). -/
def GLContext.create_shader (s : GLContext) : GLContext × Int :=
  s.add .shader

/-- GLContext::create_program. -/
def GLContext.create_program (s : GLContext) : GLContext × Int :=
  s.add .program

/-- GLContext::create_texture. -/
def GLContext.create_texture (s : GLContext) : GLContext × Int :=
  s.add .texture

/-- GLContext::create_framebuffer. -/
def GLContext.create_framebuffer (s : GLContext) : GLContext × Int :=
  s.add .framebuffer

/-- GLContext::create_vertex_array — on WebGL2 the underlying
create_vertex_array is called and the object stored; on WebGL1 no underlying
call is made but a dummy JsValue 0.0 is still stored and a handle returned.
The last component records the names of underlying GL calls performed. -/
def GLContext.create_vertex_array (s : GLContext) : GLContext × Int × List String :=
  if s.is_webgl2 then
    ((s.add .vertexArray).1, (s.add .vertexArray).2, ["create_vertex_array"])
  else
    ((s.add .num).1, (s.add .num).2, [])

/-- GLContext::bind_vertex_array — resolves the handle (unwrap: none models
the panic), then forwards to the underlying API only on WebGL2. -/
def GLContext.bind_vertex_array (s : GLContext) (h : Int) :
    Option (GLContext × List String) :=
  match s.get h with
  | none => none
  | some _ => if s.is_webgl2 then some (s, ["bind_vertex_array"]) else some (s, [])

/-- GLContext::delete_vertex_array — on WebGL2 the handle is resolved
(unwrap) and the underlying delete is called; on WebGL1 neither happens; in
both cases the table entry is removed. -/
def GLContext.delete_vertex_array (s : GLContext) (h : Int) :
    Option (GLContext × List String) :=
  if s.is_webgl2 then
    match s.get h with
    | none => none
    | some _ => some (s.remove h, ["delete_vertex_array"])
  else
    some (s.remove h, [])

/-- GLContext::delete_buffer — resolve (unwrap), underlying delete, remove
the entry. -/
def GLContext.delete_buffer (s : GLContext) (h : Int) :
    Option (GLContext × List String) :=
  match s.get h with
  | none => none
  | some _ => some (s.remove h, ["delete_buffer"])

/-- GLContext::delete_texture. -/
def GLContext.delete_texture (s : GLContext) (h : Int) :
    Option (GLContext × List String) :=
  match s.get h with
  | none => none
  | some _ => some (s.remove h, ["delete_texture"])

/-- GLContext::delete_framebuffer. -/
def GLContext.delete_framebuffer (s : GLContext) (h : Int) :
    Option (GLContext × List String) :=
  match s.get h with
  | none => none
  | some _ => some (s.remove h, ["delete_framebuffer"])

/-- GLContext::tex_parameteri — on WebGL1 the TextureWrapR parameter is
skipped entirely (early return, no underlying call); otherwise the call is
forwarded. -/
def GLContext.tex_parameteri (s : GLContext) (pname : TextureParameter) :
    GLContext × List String :=
  if s.is_webgl2 = false ∧ pname = .TextureWrapR then (s, [])
  else (s, ["tex_parameteri"])

/-- GLContext::draw_buffer — forwards draw_buffers on WebGL2, does nothing
on WebGL1. -/
def GLContext.draw_buffer (s : GLContext) (_buffers : List Nat) :
    GLContext × List String :=
  if s.is_webgl2 then (s, ["draw_buffers"]) else (s, [])

/-- GLContext::get_uniform_location — resolves the program handle (unwrap),
then maps the underlying lookup result: a found location object is stored in
the Resource Table under a fresh handle which is returned; an absent result
propagates as none.  The found flag stands for whether the underlying
getUniformLocation returned an object. -/
def GLContext.get_uniform_location (s : GLContext) (prog : Int) (found : Bool) :
    Option (GLContext × Option Int) :=
  match s.get prog with
  | none => none
  | some _ =>
    if found then some ((s.add .uniformLoc).1, some (s.add .uniformLoc).2)
    else some (s, none)

/-- Reason string of GLContext::check_error (src/webgl.rs) for a WebGL error
code. -/
def checkErrorReason (code : Nat) : String :=
  if code = INVALID_ENUM then "invalid enum"
  else if code = INVALID_OPERATION then "invalid operation"
  else if code = INVALID_VALUE then "invalid value"
  else if code = OUT_OF_MEMORY then "out of memory"
  else if code = INVALID_FRAMEBUFFER_OPERATION then "invalid framebuffer operation"
  else if code = CONTEXT_LOST_WEBGL then "context lost webgl"
  else "unknown error"

/-- GLContext::check_error — logs (does not halt) when the queried error code
is not NO_ERROR; result is the list of printed diagnostic lines. -/
def check_error (msg : String) (code : Nat) : List String :=
  if code ≠ NO_ERROR then
    ["ERROR " ++ msg ++ " " ++ checkErrorReason code]
  else []

/-- GLContext::get_attrib_location — resolves the program handle (unwrap),
queries the underlying location (loc), logs any pending error, then maps -1
to None and any other value, cast to u32, to Some.  Result: the returned
location and the printed diagnostic lines. -/
def GLContext.get_attrib_location (s : GLContext) (prog : Int) (loc : Int)
    (code : Nat) (name : String) : Option (Option Nat × List String) :=
  match s.get prog with
  | none => none
  | some _ =>
    some (if loc = -1 then none else some (u32_of_i32 loc),
      check_error ("get_attrib_location " ++ name) code)

/-- GLContext::compile_shader — resolves the shader handle (unwrap), forwards
the compile, reads the COMPILE_STATUS flag, and on failure prints the info
log; the call always returns normally once the handle resolves.  Result:
unchanged state and the printed lines. -/
def GLContext.compile_shader (s : GLContext) (sh : Int) (compiled : Bool)
    (infoLog : String) : Option (GLContext × List String) :=
  match s.get sh with
  | none => none
  | some _ =>
    if compiled then some (s, [])
    else some (s, ["Error in shader compilation :", infoLog])

/-- GLContext::link_program — same shape as compile_shader with the
LINK_STATUS flag. -/
def GLContext.link_program (s : GLContext) (p : Int) (linked : Bool)
    (infoLog : String) : Option (GLContext × List String) :=
  match s.get p with
  | none => none
  | some _ =>
    if linked then some (s, [])
    else some (s, ["ERROR while linking program :", infoLog])

/-- GLContext::tex_image2d — the arguments forwarded to the underlying
texImage2D call.  With a non-empty pixel payload the internal format is the
requested format; with an empty payload the DepthComponent format is
substituted by DEPTH_COMPONENT16 and every other format is passed through. -/
def GLContext.tex_image2d (target level width height : Nat)
    (format : PixelFormat) (pixel_kind : Nat) (pixels : List Nat) :
    TexImage2dCall :=
  if pixels.length > 0 then
    ⟨target, level, format.code, width, height, 0, format.code, pixel_kind, true⟩
  else
    let internal_format : Nat :=
      match format with
      | .DepthComponent => DEPTH_COMPONENT16
      | _ => format.code
    ⟨target, level, internal_format, width, height, 0, format.code, pixel_kind, false⟩

/-- GLContext::draw_arrays — forwards mode, the constant 0 as first vertex,
and the count cast to i32. -/
def draw_arrays (mode : Nat) (count : Nat) : DrawArraysCall :=
  ⟨mode, 0, i32_of_nat count⟩

/-- Operations of the browser backend public interface that can touch the
Resource Table or the handle counter.  otherOp stands for the remaining
operations (clears, binds, draws, uniform setters, ...) which only forward
to the underlying API and leave dict and seq untouched.  A delete or lookup
carries the integer handle the caller passes back in. -/
inductive GLOp where
  | createBuffer
  | createShader
  | createProgram
  | createTexture
  | createFramebuffer
  | createVertexArray
  | deleteBuffer (h : Int)
  | deleteTexture (h : Int)
  | deleteFramebuffer (h : Int)
  | deleteVertexArray (h : Int)
  | getUniformLoc (prog : Int) (found : Bool)
  | otherOp
deriving DecidableEq

/-- Whether an operation is one of the six resource-creation calls. -/
def GLOp.isCreate : GLOp → Bool
  | .createBuffer | .createShader | .createProgram
  | .createTexture | .createFramebuffer | .createVertexArray => true
  | _ => false

/-- Whether an operation is a delete call whose argument is the handle h. -/
def GLOp.deletesHandle : GLOp → Int → Bool
  | .deleteBuffer h, h0 => h == h0
  | .deleteTexture h, h0 => h == h0
  | .deleteFramebuffer h, h0 => h == h0
  | .deleteVertexArray h, h0 => h == h0
  | _, _ => false

/-- Small-step semantics of one public call on the browser context: none
models a panic (failed unwrap of a Resource Table lookup); otherwise the new
state together with the handle returned to the caller, if any. -/
def step (s : GLContext) : GLOp → Option (GLContext × Option Int)
  | .createBuffer => some ((s.create_buffer).1, some (s.create_buffer).2)
  | .createShader => some ((s.create_shader).1, some (s.create_shader).2)
  | .createProgram => some ((s.create_program).1, some (s.create_program).2)
  | .createTexture => some ((s.create_texture).1, some (s.create_texture).2)
  | .createFramebuffer => some ((s.create_framebuffer).1, some (s.create_framebuffer).2)
  | .createVertexArray =>
      some ((s.create_vertex_array).1, some (s.create_vertex_array).2.1)
  | .deleteBuffer h => (s.delete_buffer h).map (fun r => (r.1, none))
  | .deleteTexture h => (s.delete_texture h).map (fun r => (r.1, none))
  | .deleteFramebuffer h => (s.delete_framebuffer h).map (fun r => (r.1, none))
  | .deleteVertexArray h => (s.delete_vertex_array h).map (fun r => (r.1, none))
  | .getUniformLoc prog found => (s.get_uniform_location prog found).map (fun r => (r.1, r.2))
  | .otherOp => some (s, none)

/-- Run a sequence of public calls; none as soon as one panics. -/
def runOps (s : GLContext) : List GLOp → Option GLContext
  | [] => some s
  | op :: rest =>
    match step s op with
    | none => none
    | some (s1, _) => runOps s1 rest

/-- Run a sequence of public calls collecting, in order, the handles
returned by the resource-creation calls. -/
def runHandles (s : GLContext) : List GLOp → Option (GLContext × List Int)
  | [] => some (s, [])
  | op :: rest =>
    match step s op with
    | none => none
    | some (s1, r) =>
      (runHandles s1 rest).map
        (fun q => (q.1, (if op.isCreate then r.toList else []) ++ q.2))

/-- Well-formedness of a browser context: every Resource Table key is below
the next-handle counter.  GLContext.initial satisfies it and every operation
preserves it. -/
def Wf (s : GLContext) : Prop :=
  ∀ p ∈ s.dict, p.1 < s.seq

/-- Well-typedness of one call at a state: a delete is applied to a handle
whose table entry is a resource of the matching kind (for vertex arrays,
also the WebGL1 dummy).  Every non-delete call is well typed. -/
def wellTypedOp (s : GLContext) : GLOp → Prop
  | .deleteBuffer h => s.get h = some .buffer
  | .deleteTexture h => s.get h = some .texture
  | .deleteFramebuffer h => s.get h = some .framebuffer
  | .deleteVertexArray h => s.get h = some .vertexArray ∨ s.get h = some .num
  | _ => True

/-- Well-typedness of a whole call sequence starting at a state. -/
def wellTypedFrom (s : GLContext) : List GLOp → Prop
  | [] => True
  | op :: rest =>
    wellTypedOp s op ∧ ∀ s1 r, step s op = some (s1, r) → wellTypedFrom s1 rest

end Web

namespace Native

/-- Reason string of check_gl_error (src/webgl_native.rs) for a GL error
code.  The match has arms for six codes; every other code, including
INVALID_FRAMEBUFFER_OPERATION, falls to the default arm. -/
def glErrorReason (err : Nat) : String :=
  if err = INVALID_ENUM then "invalid enum"
  else if err = INVALID_OPERATION then "invalid operation"
  else if err = INVALID_VALUE then "invalid value"
  else if err = OUT_OF_MEMORY then "out of memory"
  else if err = STACK_OVERFLOW then "stack overflow"
  else if err = STACK_UNDERFLOW then "stack underflow"
  else "unknown error"

/-- check_gl_error — panics (some message) when the queried error register is
not NO_ERROR, with the failing operation name and the symbolic reason in the
message; returns normally (none) otherwise. -/
def check_gl_error (msg : String) (err : Nat) : Option String :=
  if err ≠ NO_ERROR then
    some ("GLError: " ++ msg ++ " " ++ toString err ++ " (" ++ glErrorReason err ++ ")")
  else none

/-- GLContext::compile_shader (native) — reads the COMPILE_STATUS flag; on
failure fetches the shader info log and panics with it (Except.error);
otherwise runs the post-call error check.  The status, log and error
register value are inputs from the underlying API. -/
def compile_shader (status : Bool) (infoLog : String) (err : Nat) :
    Except String Unit :=
  if status = false then Except.error infoLog
  else
    match check_gl_error "compile_shader" err with
    | some m => Except.error m
    | none => Except.ok ()

/-- GLContext::link_program (native) — reads the LINK_STATUS flag; on failure
fetches the program info log and panics with it; otherwise runs the
post-call error check. -/
def link_program (status : Bool) (infoLog : String) (err : Nat) :
    Except String Unit :=
  if status = false then Except.error infoLog
  else
    match check_gl_error "link_program" err with
    | some m => Except.error m
    | none => Except.ok ()

/-- GLContext::get_attrib_location (native) — queries the underlying
location, runs the post-call error check, then maps -1 to None and any other
value, cast to u32, to Some. -/
def get_attrib_location (loc : Int) (err : Nat) : Except String (Option Nat) :=
  match check_gl_error "get_attrib_location" err with
  | some m => Except.error m
  | none => Except.ok (if loc = -1 then none else some (u32_of_i32 loc))

/-- Uniform location value returned by the native backend: the underlying
location cast to u32, paired with the retained name string. -/
structure UniformLocation where
  reference : Nat
  name : String
deriving DecidableEq

/-- GLContext::get_uniform_location (native) — queries the underlying
location, runs the post-call error check (tagged with the name), then maps
-1 to None and any other value to Some location paired with the name. -/
def get_uniform_location (name : String) (loc : Int) (err : Nat) :
    Except String (Option UniformLocation) :=
  match check_gl_error ("get_uniform_location " ++ name) err with
  | some m => Except.error m
  | none =>
    Except.ok (if loc = -1 then none else some ⟨u32_of_i32 loc, name⟩)

/-- GLContext::draw_arrays (native) — forwards mode, the constant 0 as first
vertex, and the count cast to GLsizei. -/
def draw_arrays (mode : Nat) (count : Nat) : DrawArraysCall :=
  ⟨mode, 0, i32_of_nat count⟩

end Native

/-- Row-major flattening of an n by n matrix into the flat sequence of n*n
values actually transmitted by the uniform matrix setters: on the browser
backend via mem::transmute of the nested array reference, on the native
backend via the pointer to the first row; both reinterpret the same
row-major memory layout, element [i][j] at flat index n*i+j. -/
def flattenMatrix (n : Nat) (m : Fin n → Fin n → α) : List α :=
  (List.finRange n).flatMap (fun i => (List.finRange n).map (fun j => m i j))

namespace Web

/-- Flat value sequence transmitted by the browser uniform_matrix_2fv. -/
def uniform_matrix_2fv (value : Fin 2 → Fin 2 → α) : List α := flattenMatrix 2 value

/-- Flat value sequence transmitted by the browser uniform_matrix_3fv. -/
def uniform_matrix_3fv (value : Fin 3 → Fin 3 → α) : List α := flattenMatrix 3 value

/-- Flat value sequence transmitted by the browser uniform_matrix_4fv. -/
def uniform_matrix_4fv (value : Fin 4 → Fin 4 → α) : List α := flattenMatrix 4 value

end Web

namespace Native

/-- Flat value sequence transmitted by the native uniform_matrix_2fv. -/
def uniform_matrix_2fv (value : Fin 2 → Fin 2 → α) : List α := flattenMatrix 2 value

/-- Flat value sequence transmitted by the native uniform_matrix_3fv. -/
def uniform_matrix_3fv (value : Fin 3 → Fin 3 → α) : List α := flattenMatrix 3 value

/-- Flat value sequence transmitted by the native uniform_matrix_4fv. -/
def uniform_matrix_4fv (value : Fin 4 → Fin 4 → α) : List α := flattenMatrix 4 value

end Native

namespace Web

theorem find?_filter_ne (l : List (Int × JsVal)) (k j : Int) (hne : k ≠ j) :
    (l.filter (fun p => !(p.1 == j))).find? (fun p => p.1 == k)
      = l.find? (fun p => p.1 == k) := by
  induction l with
  | nil => rfl
  | cons a t ih =>
    cases hbj : (a.1 == j) with
    | true =>
      have haj : a.1 = j := by simpa using hbj
      have hbk : (a.1 == k) = false := by simp [haj, Ne.symm hne]
      simp [List.filter_cons, List.find?_cons, hbj, hbk, ih]
    | false =>
      cases hbk : (a.1 == k) with
      | true => simp [List.filter_cons, List.find?_cons, hbj, hbk]
      | false => simp [List.filter_cons, List.find?_cons, hbj, hbk, ih]

theorem length_filter_filter_ne (l : List (Int × JsVal)) (k j : Int) (hne : k ≠ j) :
    ((l.filter (fun p => !(p.1 == j))).filter (fun p => p.1 == k)).length
      = (l.filter (fun p => p.1 == k)).length := by
  rw [List.filter_filter]
  apply congrArg List.length
  apply List.filter_congr
  intro a _
  by_cases hak : a.1 = k
  · simp [hak, hne]
  · simp [hak]

theorem length_filter_filter_self (l : List (Int × JsVal)) (j : Int) :
    ((l.filter (fun p => !(p.1 == j))).filter (fun p => p.1 == j)).length = 0 := by
  rw [List.filter_filter]
  simp

theorem add_seq (s : GLContext) (v : JsVal) : (s.add v).1.seq = s.seq + 1 := rfl

theorem add_ret (s : GLContext) (v : JsVal) : (s.add v).2 = s.seq := rfl

theorem countKey_add_self (s : GLContext) (v : JsVal) :
    countKey (s.add v).1 s.seq = 1 := by
  simp only [countKey, GLContext.add, List.filter_cons]
  simp [length_filter_filter_self]

theorem countKey_add_ne (s : GLContext) (v : JsVal) (h0 : Int) (hne : h0 ≠ s.seq) :
    countKey (s.add v).1 h0 = countKey s h0 := by
  simp only [countKey, GLContext.add, List.filter_cons]
  have h1 : (s.seq == h0) = false := by simp [Ne.symm hne]
  simp only [h1, Bool.false_eq_true, if_false, cond_false]
  exact length_filter_filter_ne s.dict h0 s.seq hne

theorem countKey_remove_self (s : GLContext) (h0 : Int) :
    countKey (s.remove h0) h0 = 0 := by
  simp only [countKey, GLContext.remove]
  exact length_filter_filter_self s.dict h0

theorem countKey_remove_ne (s : GLContext) (h0 h1 : Int) (hne : h0 ≠ h1) :
    countKey (s.remove h1) h0 = countKey s h0 := by
  simp only [countKey, GLContext.remove]
  exact length_filter_filter_ne s.dict h0 h1 hne

theorem get_add_self (s : GLContext) (v : JsVal) :
    (s.add v).1.get s.seq = some v := by
  simp [GLContext.get, GLContext.add, List.find?]

theorem get_add_ne (s : GLContext) (v : JsVal) (h0 : Int) (hne : h0 ≠ s.seq) :
    (s.add v).1.get h0 = s.get h0 := by
  have h1 : (s.seq == h0) = false := by simp [Ne.symm hne]
  simp only [GLContext.get, GLContext.add, List.find?, h1]
  rw [find?_filter_ne s.dict h0 s.seq hne]

theorem get_remove_ne (s : GLContext) (h0 h1 : Int) (hne : h0 ≠ h1) :
    (s.remove h1).get h0 = s.get h0 := by
  simp only [GLContext.get, GLContext.remove]
  rw [find?_filter_ne s.dict h0 h1 hne]

theorem wf_initial (b : Bool) : Wf (GLContext.initial b) := by
  intro p hp
  simp [GLContext.initial] at hp

theorem wf_add (s : GLContext) (v : JsVal) (hw : Wf s) : Wf (s.add v).1 := by
  intro p hp
  simp only [GLContext.add] at hp
  rcases List.mem_cons.mp hp with hp1 | hp1
  · simp [hp1, add_seq]
  · have := hw p (List.mem_of_mem_filter hp1)
    simp only [add_seq]
    omega

theorem wf_remove (s : GLContext) (h0 : Int) (hw : Wf s) : Wf (s.remove h0) := by
  intro p hp
  exact hw p (List.mem_of_mem_filter hp)

theorem get_lt_seq (s : GLContext) (h0 : Int) (v : JsVal) (hw : Wf s)
    (hg : s.get h0 = some v) : h0 < s.seq := by
  simp only [GLContext.get, Option.map_eq_some'] at hg
  rcases hg with ⟨p, hp, hv⟩
  have hmem := List.mem_of_find?_eq_some hp
  have heq := List.find?_some hp
  have : p.1 = h0 := by simpa using heq
  have := hw p hmem
  omega

theorem preserve_add (s : GLContext) (v : JsVal) (h0 : Int) (hlt : h0 < s.seq) :
    countKey (s.add v).1 h0 = countKey s h0 ∧ (s.add v).1.get h0 = s.get h0
      ∧ s.seq ≤ (s.add v).1.seq := by
  have hne : h0 ≠ s.seq := by omega
  refine ⟨countKey_add_ne s v h0 hne, get_add_ne s v h0 hne, ?_⟩
  rw [add_seq]
  omega

theorem preserve_remove (s : GLContext) (h1 h0 : Int) (hne : h0 ≠ h1) :
    countKey (s.remove h1) h0 = countKey s h0 ∧ (s.remove h1).get h0 = s.get h0
      ∧ s.seq ≤ (s.remove h1).seq :=
  ⟨countKey_remove_ne s h0 h1 hne, get_remove_ne s h0 h1 hne, le_refl _⟩

theorem step_create {s s1 : GLContext} {op : GLOp} {r : Option Int}
    (hc : op.isCreate = true) (hs : step s op = some (s1, r)) :
    ∃ v : JsVal, s1 = (s.add v).1 ∧ r = some s.seq := by
  cases op with
  | createBuffer =>
    simp only [step, GLContext.create_buffer, Option.some.injEq, Prod.mk.injEq] at hs
    exact ⟨.buffer, hs.1.symm, hs.2.symm⟩
  | createShader =>
    simp only [step, GLContext.create_shader, Option.some.injEq, Prod.mk.injEq] at hs
    exact ⟨.shader, hs.1.symm, hs.2.symm⟩
  | createProgram =>
    simp only [step, GLContext.create_program, Option.some.injEq, Prod.mk.injEq] at hs
    exact ⟨.program, hs.1.symm, hs.2.symm⟩
  | createTexture =>
    simp only [step, GLContext.create_texture, Option.some.injEq, Prod.mk.injEq] at hs
    exact ⟨.texture, hs.1.symm, hs.2.symm⟩
  | createFramebuffer =>
    simp only [step, GLContext.create_framebuffer, Option.some.injEq, Prod.mk.injEq] at hs
    exact ⟨.framebuffer, hs.1.symm, hs.2.symm⟩
  | createVertexArray =>
    by_cases hw : s.is_webgl2 = true
    · simp only [step, GLContext.create_vertex_array, hw, if_true,
        Option.some.injEq, Prod.mk.injEq] at hs
      exact ⟨.vertexArray, hs.1.symm, hs.2.symm⟩
    · simp only [step, GLContext.create_vertex_array, hw, if_false,
        Option.some.injEq, Prod.mk.injEq] at hs
      exact ⟨.num, hs.1.symm, hs.2.symm⟩
  | deleteBuffer h => simp [GLOp.isCreate] at hc
  | deleteTexture h => simp [GLOp.isCreate] at hc
  | deleteFramebuffer h => simp [GLOp.isCreate] at hc
  | deleteVertexArray h => simp [GLOp.isCreate] at hc
  | getUniformLoc prog found => simp [GLOp.isCreate] at hc
  | otherOp => simp [GLOp.isCreate] at hc

theorem step_delete {s s1 : GLContext} {op : GLOp} {r : Option Int} {h0 : Int}
    (hd : op.deletesHandle h0 = true) (hs : step s op = some (s1, r)) :
    s1 = s.remove h0 := by
  cases op with
  | deleteBuffer h =>
    have hh : h = h0 := by simpa [GLOp.deletesHandle] using hd
    subst hh
    simp only [step] at hs
    cases hg : s.get h with
    | none => simp [GLContext.delete_buffer, hg] at hs
    | some v =>
      simp only [GLContext.delete_buffer, hg, Option.map_some', Option.some.injEq,
        Prod.mk.injEq] at hs
      exact hs.1.symm
  | deleteTexture h =>
    have hh : h = h0 := by simpa [GLOp.deletesHandle] using hd
    subst hh
    simp only [step] at hs
    cases hg : s.get h with
    | none => simp [GLContext.delete_texture, hg] at hs
    | some v =>
      simp only [GLContext.delete_texture, hg, Option.map_some', Option.some.injEq,
        Prod.mk.injEq] at hs
      exact hs.1.symm
  | deleteFramebuffer h =>
    have hh : h = h0 := by simpa [GLOp.deletesHandle] using hd
    subst hh
    simp only [step] at hs
    cases hg : s.get h with
    | none => simp [GLContext.delete_framebuffer, hg] at hs
    | some v =>
      simp only [GLContext.delete_framebuffer, hg, Option.map_some', Option.some.injEq,
        Prod.mk.injEq] at hs
      exact hs.1.symm
  | deleteVertexArray h =>
    have hh : h = h0 := by simpa [GLOp.deletesHandle] using hd
    subst hh
    simp only [step] at hs
    by_cases hw : s.is_webgl2 = true
    · simp only [GLContext.delete_vertex_array, hw, if_true] at hs
      cases hg : s.get h with
      | none => simp [hg] at hs
      | some v =>
        simp only [hg, Option.map_some', Option.some.injEq, Prod.mk.injEq] at hs
        exact hs.1.symm
    · simp only [GLContext.delete_vertex_array, hw, Bool.false_eq_true, if_false,
        Option.map_some', Option.some.injEq, Prod.mk.injEq] at hs
      exact hs.1.symm
  | createBuffer => simp [GLOp.deletesHandle] at hd
  | createShader => simp [GLOp.deletesHandle] at hd
  | createProgram => simp [GLOp.deletesHandle] at hd
  | createTexture => simp [GLOp.deletesHandle] at hd
  | createFramebuffer => simp [GLOp.deletesHandle] at hd
  | createVertexArray => simp [GLOp.deletesHandle] at hd
  | getUniformLoc prog found => simp [GLOp.deletesHandle] at hd
  | otherOp => simp [GLOp.deletesHandle] at hd

theorem step_shape {s s1 : GLContext} {op : GLOp} {r : Option Int}
    (hs : step s op = some (s1, r)) :
    (∃ v : JsVal, s1 = (s.add v).1) ∨ (∃ h0 : Int, s1 = s.remove h0) ∨ s1 = s := by
  cases op with
  | createBuffer =>
    exact Or.inl ⟨.buffer, ((Prod.mk.injEq _ _ _ _).mp (Option.some.inj hs)).1.symm⟩
  | createShader =>
    exact Or.inl ⟨.shader, ((Prod.mk.injEq _ _ _ _).mp (Option.some.inj hs)).1.symm⟩
  | createProgram =>
    exact Or.inl ⟨.program, ((Prod.mk.injEq _ _ _ _).mp (Option.some.inj hs)).1.symm⟩
  | createTexture =>
    exact Or.inl ⟨.texture, ((Prod.mk.injEq _ _ _ _).mp (Option.some.inj hs)).1.symm⟩
  | createFramebuffer =>
    exact Or.inl ⟨.framebuffer, ((Prod.mk.injEq _ _ _ _).mp (Option.some.inj hs)).1.symm⟩
  | createVertexArray =>
    obtain ⟨v, hv, -⟩ := step_create (by simp [GLOp.isCreate]) hs
    exact Or.inl ⟨v, hv⟩
  | deleteBuffer h =>
    exact Or.inr (Or.inl ⟨h, step_delete (by simp [GLOp.deletesHandle]) hs⟩)
  | deleteTexture h =>
    exact Or.inr (Or.inl ⟨h, step_delete (by simp [GLOp.deletesHandle]) hs⟩)
  | deleteFramebuffer h =>
    exact Or.inr (Or.inl ⟨h, step_delete (by simp [GLOp.deletesHandle]) hs⟩)
  | deleteVertexArray h =>
    exact Or.inr (Or.inl ⟨h, step_delete (by simp [GLOp.deletesHandle]) hs⟩)
  | getUniformLoc prog found =>
    simp only [step] at hs
    cases hg : s.get prog with
    | none => simp [GLContext.get_uniform_location, hg] at hs
    | some v =>
      by_cases hf : found = true
      · simp only [GLContext.get_uniform_location, hg, hf, if_true, Option.map_some',
          Option.some.injEq, Prod.mk.injEq] at hs
        exact Or.inl ⟨.uniformLoc, hs.1.symm⟩
      · simp only [GLContext.get_uniform_location, hg, hf, Bool.false_eq_true, if_false,
          Option.map_some', Option.some.injEq, Prod.mk.injEq] at hs
        exact Or.inr (Or.inr hs.1.symm)
  | otherOp =>
    exact Or.inr (Or.inr ((Prod.mk.injEq _ _ _ _).mp (Option.some.inj hs)).1.symm)

theorem step_wf {s s1 : GLContext} {op : GLOp} {r : Option Int}
    (hs : step s op = some (s1, r)) (hw : Wf s) : Wf s1 := by
  rcases step_shape hs with ⟨v, hv⟩ | ⟨h0, hv⟩ | hv
  · rw [hv]; exact wf_add s v hw
  · rw [hv]; exact wf_remove s h0 hw
  · rw [hv]; exact hw

theorem step_seq_mono {s s1 : GLContext} {op : GLOp} {r : Option Int}
    (hs : step s op = some (s1, r)) : s.seq ≤ s1.seq := by
  rcases step_shape hs with ⟨v, hv⟩ | ⟨h0, hv⟩ | hv
  · rw [hv, add_seq]; omega
  · rw [hv]; exact le_refl _
  · rw [hv]

theorem step_preserve {s s1 : GLContext} {op : GLOp} {r : Option Int} (h0 : Int)
    (hlt : h0 < s.seq) (hnd : op.deletesHandle h0 = false)
    (hs : step s op = some (s1, r)) :
    countKey s1 h0 = countKey s h0 ∧ s1.get h0 = s.get h0 := by
  have hne : h0 ≠ s.seq := by omega
  cases op with
  | createBuffer =>
    obtain ⟨v, hv, -⟩ := step_create (by simp [GLOp.isCreate]) hs
    rw [hv]
    exact ⟨countKey_add_ne s v h0 hne, get_add_ne s v h0 hne⟩
  | createShader =>
    obtain ⟨v, hv, -⟩ := step_create (by simp [GLOp.isCreate]) hs
    rw [hv]
    exact ⟨countKey_add_ne s v h0 hne, get_add_ne s v h0 hne⟩
  | createProgram =>
    obtain ⟨v, hv, -⟩ := step_create (by simp [GLOp.isCreate]) hs
    rw [hv]
    exact ⟨countKey_add_ne s v h0 hne, get_add_ne s v h0 hne⟩
  | createTexture =>
    obtain ⟨v, hv, -⟩ := step_create (by simp [GLOp.isCreate]) hs
    rw [hv]
    exact ⟨countKey_add_ne s v h0 hne, get_add_ne s v h0 hne⟩
  | createFramebuffer =>
    obtain ⟨v, hv, -⟩ := step_create (by simp [GLOp.isCreate]) hs
    rw [hv]
    exact ⟨countKey_add_ne s v h0 hne, get_add_ne s v h0 hne⟩
  | createVertexArray =>
    obtain ⟨v, hv, -⟩ := step_create (by simp [GLOp.isCreate]) hs
    rw [hv]
    exact ⟨countKey_add_ne s v h0 hne, get_add_ne s v h0 hne⟩
  | deleteBuffer h =>
    have hhh : h ≠ h0 := by simpa [GLOp.deletesHandle] using hnd
    rw [step_delete (show GLOp.deletesHandle (.deleteBuffer h) h = true by
      simp [GLOp.deletesHandle]) hs]
    exact ⟨countKey_remove_ne s h0 h (Ne.symm hhh), get_remove_ne s h0 h (Ne.symm hhh)⟩
  | deleteTexture h =>
    have hhh : h ≠ h0 := by simpa [GLOp.deletesHandle] using hnd
    rw [step_delete (show GLOp.deletesHandle (.deleteTexture h) h = true by
      simp [GLOp.deletesHandle]) hs]
    exact ⟨countKey_remove_ne s h0 h (Ne.symm hhh), get_remove_ne s h0 h (Ne.symm hhh)⟩
  | deleteFramebuffer h =>
    have hhh : h ≠ h0 := by simpa [GLOp.deletesHandle] using hnd
    rw [step_delete (show GLOp.deletesHandle (.deleteFramebuffer h) h = true by
      simp [GLOp.deletesHandle]) hs]
    exact ⟨countKey_remove_ne s h0 h (Ne.symm hhh), get_remove_ne s h0 h (Ne.symm hhh)⟩
  | deleteVertexArray h =>
    have hhh : h ≠ h0 := by simpa [GLOp.deletesHandle] using hnd
    rw [step_delete (show GLOp.deletesHandle (.deleteVertexArray h) h = true by
      simp [GLOp.deletesHandle]) hs]
    exact ⟨countKey_remove_ne s h0 h (Ne.symm hhh), get_remove_ne s h0 h (Ne.symm hhh)⟩
  | getUniformLoc prog found =>
    simp only [step] at hs
    cases hg : s.get prog with
    | none => simp [GLContext.get_uniform_location, hg] at hs
    | some v =>
      by_cases hf : found = true
      · simp only [GLContext.get_uniform_location, hg, hf, if_true, Option.map_some',
          Option.some.injEq, Prod.mk.injEq] at hs
        rw [← hs.1]
        exact ⟨countKey_add_ne s .uniformLoc h0 hne, get_add_ne s .uniformLoc h0 hne⟩
      · simp only [GLContext.get_uniform_location, hg, hf, Bool.false_eq_true, if_false,
          Option.map_some', Option.some.injEq, Prod.mk.injEq] at hs
        rw [← hs.1]
        exact ⟨rfl, rfl⟩
  | otherOp =>
    have hv := ((Prod.mk.injEq _ _ _ _).mp (Option.some.inj hs)).1
    rw [← hv]
    exact ⟨rfl, rfl⟩

theorem runOps_wf_seq (ops : List GLOp) :
    ∀ s s1, runOps s ops = some s1 → (Wf s → Wf s1) ∧ s.seq ≤ s1.seq := by
  induction ops with
  | nil =>
    intro s s1 hr
    simp only [runOps, Option.some.injEq] at hr
    subst hr
    exact ⟨fun h => h, le_refl _⟩
  | cons op rest ih =>
    intro s s1 hr
    simp only [runOps] at hr
    cases hstep : step s op with
    | none => rw [hstep] at hr; exact absurd hr (by simp)
    | some pr =>
      obtain ⟨s2, r⟩ := pr
      rw [hstep] at hr
      have hrest := ih s2 s1 hr
      exact ⟨fun h => hrest.1 (step_wf hstep h),
        le_trans (step_seq_mono hstep) hrest.2⟩

theorem runOps_preserve (ops : List GLOp) :
    ∀ s s1 h0, runOps s ops = some s1 → h0 < s.seq →
      (∀ op ∈ ops, op.deletesHandle h0 = false) →
      countKey s1 h0 = countKey s h0 ∧ s1.get h0 = s.get h0 := by
  induction ops with
  | nil =>
    intro s s1 h0 hr _ _
    simp only [runOps, Option.some.injEq] at hr
    subst hr
    exact ⟨rfl, rfl⟩
  | cons op rest ih =>
    intro s s1 h0 hr hlt hnd
    simp only [runOps] at hr
    cases hstep : step s op with
    | none => rw [hstep] at hr; exact absurd hr (by simp)
    | some pr =>
      obtain ⟨s2, r⟩ := pr
      rw [hstep] at hr
      have hp := step_preserve h0 hlt (hnd op (by simp)) hstep
      have hlt2 : h0 < s2.seq := lt_of_lt_of_le hlt (step_seq_mono hstep)
      have hrest := ih s2 s1 h0 hr hlt2 (fun o ho => hnd o (by simp [ho]))
      exact ⟨hrest.1.trans hp.1, hrest.2.trans hp.2⟩

theorem runHandles_facts (ops : List GLOp) :
    ∀ s s1 hs, runHandles s ops = some (s1, hs) →
      (∀ h0 ∈ hs, s.seq ≤ h0 ∧ h0 < s1.seq) ∧ hs.Pairwise (fun a b => a < b)
        ∧ s.seq ≤ s1.seq := by
  induction ops with
  | nil =>
    intro s s1 hs hr
    simp only [runHandles, Option.some.injEq, Prod.mk.injEq] at hr
    obtain ⟨he1, he2⟩ := hr
    subst he1
    subst he2
    exact ⟨by simp, List.Pairwise.nil, le_refl _⟩
  | cons op rest ih =>
    intro s s1 hs hr
    simp only [runHandles] at hr
    cases hstep : step s op with
    | none => rw [hstep] at hr; exact absurd hr (by simp)
    | some pr =>
      obtain ⟨s2, r⟩ := pr
      rw [hstep] at hr
      rw [Option.map_eq_some'] at hr
      obtain ⟨⟨s1x, hsx⟩, hrec, heq⟩ := hr
      simp only [Prod.mk.injEq] at heq
      obtain ⟨he1, he2⟩ := heq
      subst he1
      subst he2
      have hmono := step_seq_mono hstep
      have hrest := ih s2 _ hsx hrec
      have hub := hrest.2.2
      by_cases hc : op.isCreate = true
      · obtain ⟨v, hv, hrq⟩ := step_create hc hstep
        subst hrq
        have hseq2 : s2.seq = s.seq + 1 := by rw [hv, add_seq]
        simp only [hc, if_true, Option.toList_some, List.singleton_append]
        refine ⟨?_, ?_, by omega⟩
        · intro h0 hh0
          rcases List.mem_cons.mp hh0 with he | hm
          · subst he
            exact ⟨le_refl _, by have := hub; omega⟩
          · have hb := hrest.1 h0 hm
            exact ⟨by omega, hb.2⟩
        · rw [List.pairwise_cons]
          refine ⟨?_, hrest.2.1⟩
          intro b hb
          have hb1 := (hrest.1 b hb).1
          omega
      · simp only [Bool.not_eq_true] at hc
        simp only [hc, Bool.false_eq_true, if_false, List.nil_append]
        refine ⟨?_, hrest.2.1, by omega⟩
        intro h0 hh0
        have hb := hrest.1 h0 hh0
        exact ⟨by omega, hb.2⟩

theorem step_getUniformLoc_true {s s1 : GLContext} {p : Int} {r : Option Int}
    (hs : step s (.getUniformLoc p true) = some (s1, r)) :
    s1 = (s.add .uniformLoc).1 ∧ r = some s.seq := by
  simp only [step] at hs
  cases hg : s.get p with
  | none => simp [GLContext.get_uniform_location, hg] at hs
  | some v =>
    simp only [GLContext.get_uniform_location, hg, if_true, Option.map_some',
      Option.some.injEq, Prod.mk.injEq] at hs
    exact ⟨hs.1.symm, hs.2.symm⟩

theorem step_uniform_persist {s s1 : GLContext} {op : GLOp} {r : Option Int}
    (h0 : Int) (hw : Wf s) (hu : s.get h0 = some .uniformLoc)
    (hwt : wellTypedOp s op) (hs : step s op = some (s1, r)) :
    s1.get h0 = some .uniformLoc := by
  have hlt : h0 < s.seq := get_lt_seq s h0 _ hw hu
  have hnd : op.deletesHandle h0 = false := by
    cases op with
    | deleteBuffer h =>
      simp only [wellTypedOp] at hwt
      have hne : h ≠ h0 := by
        intro he
        rw [he, hu] at hwt
        simp at hwt
      simp [GLOp.deletesHandle, hne]
    | deleteTexture h =>
      simp only [wellTypedOp] at hwt
      have hne : h ≠ h0 := by
        intro he
        rw [he, hu] at hwt
        simp at hwt
      simp [GLOp.deletesHandle, hne]
    | deleteFramebuffer h =>
      simp only [wellTypedOp] at hwt
      have hne : h ≠ h0 := by
        intro he
        rw [he, hu] at hwt
        simp at hwt
      simp [GLOp.deletesHandle, hne]
    | deleteVertexArray h =>
      simp only [wellTypedOp] at hwt
      have hne : h ≠ h0 := by
        intro he
        rcases hwt with hwt | hwt <;> rw [he, hu] at hwt <;> simp at hwt
      simp [GLOp.deletesHandle, hne]
    | createBuffer => simp [GLOp.deletesHandle]
    | createShader => simp [GLOp.deletesHandle]
    | createProgram => simp [GLOp.deletesHandle]
    | createTexture => simp [GLOp.deletesHandle]
    | createFramebuffer => simp [GLOp.deletesHandle]
    | createVertexArray => simp [GLOp.deletesHandle]
    | getUniformLoc prog found => simp [GLOp.deletesHandle]
    | otherOp => simp [GLOp.deletesHandle]
  rw [(step_preserve h0 hlt hnd hs).2]
  exact hu

theorem runOps_uniform_persist (ops : List GLOp) :
    ∀ s s1 h0, Wf s → s.get h0 = some .uniformLoc → wellTypedFrom s ops →
      runOps s ops = some s1 → s1.get h0 = some .uniformLoc := by
  induction ops with
  | nil =>
    intro s s1 h0 _ hu _ hr
    simp only [runOps, Option.some.injEq] at hr
    subst hr
    exact hu
  | cons op rest ih =>
    intro s s1 h0 hw hu hwt hr
    simp only [runOps] at hr
    cases hstep : step s op with
    | none => rw [hstep] at hr; exact absurd hr (by simp)
    | some pr =>
      obtain ⟨s2, r⟩ := pr
      rw [hstep] at hr
      simp only [wellTypedFrom] at hwt
      exact ih s2 s1 h0 (step_wf hstep hw)
        (step_uniform_persist h0 hw hu hwt.1 hstep) (hwt.2 s2 r hstep) hr

/-- C1: browser backend Resource Table invariant — a handle returned by a
resource-creation call that has not subsequently been passed to a delete
call has exactly one entry in the handle-to-object table, and a delete call
on that handle removes its entry, so after create followed by delete no
entry for the handle remains. -/
theorem resource_table_invariant
    (b : Bool) (ops1 : List GLOp) (cop : GLOp) (ops2 : List GLOp)
    (s1 s2 s3 : GLContext) (h : Int)
    (h1 : runOps (GLContext.initial b) ops1 = some s1)
    (hc : cop.isCreate = true)
    (h2 : step s1 cop = some (s2, some h))
    (hnd : ∀ op ∈ ops2, op.deletesHandle h = false)
    (h3 : runOps s2 ops2 = some s3) :
    countKey s3 h = 1 ∧
      ∀ dop s4 r2, dop.deletesHandle h = true → step s3 dop = some (s4, r2) →
        countKey s4 h = 0 := by
  obtain ⟨v, hv, hr⟩ := step_create hc h2
  have hh : h = s1.seq := by simpa using hr
  subst hv
  have hcnt : countKey (s1.add v).1 h = 1 := by
    rw [hh]
    exact countKey_add_self s1 v
  have hlt : h < (s1.add v).1.seq := by
    rw [add_seq, hh]
    omega
  have hpres := runOps_preserve ops2 _ s3 h h3 hlt hnd
  refine ⟨by rw [hpres.1, hcnt], ?_⟩
  intro dop s4 r2 hd hstep
  rw [step_delete hd hstep]
  exact countKey_remove_self s3 h

/-- C1 witness: create a buffer on a fresh context, then a texture; the
buffer handle 1 has exactly one entry, and deleting it leaves none. -/
theorem resource_table_invariant_witness :
    countKey ⟨true, [(2, .texture), (1, .buffer)], 3⟩ 1 = 1 ∧
      countKey ⟨true, [(2, .texture)], 3⟩ 1 = 0 := by
  have hmain := resource_table_invariant true [] .createBuffer [.createTexture]
    (GLContext.initial true) ⟨true, [(1, .buffer)], 2⟩ ⟨true, [(2, .texture), (1, .buffer)], 3⟩ 1
    (by decide) (by decide) (by decide) (by decide) (by decide)
  exact ⟨hmain.1, hmain.2 (.deleteBuffer 1) ⟨true, [(2, .texture)], 3⟩ none
    (by decide) (by decide)⟩

/-- C2: browser backend handle uniqueness — over any run of the context
starting at creation, the handles returned by the resource-creation calls
are strictly increasing in order of creation (hence pairwise distinct), and
every one of them stays below the final counter value, so no retired handle
is ever handed out again for the lifetime of the context. -/
theorem handle_uniqueness (b : Bool) (ops : List GLOp) (s1 : GLContext)
    (hs : List Int)
    (h1 : runHandles (GLContext.initial b) ops = some (s1, hs)) :
    hs.Pairwise (fun a b => a < b) ∧ ∀ h ∈ hs, h < s1.seq := by
  have hfacts := runHandles_facts ops (GLContext.initial b) s1 hs h1
  exact ⟨hfacts.2.1, fun h hm => (hfacts.1 h hm).2⟩

/-- C2 witness: create buffer, texture, delete the buffer, create a shader;
the returned handles 1, 2, 3 are strictly increasing and below the final
counter 4. -/
theorem handle_uniqueness_witness :
    ([1, 2, 3] : List Int).Pairwise (fun a b => a < b) ∧
      ∀ h ∈ ([1, 2, 3] : List Int), h < (4 : Int) := by
  have hmain := handle_uniqueness true
    [.createBuffer, .createTexture, .deleteBuffer 1, .createShader]
    ⟨true, [(3, .shader), (2, .texture)], 4⟩ [1, 2, 3] (by decide)
  exact hmain

/-- C3 counterexample: on a WebGL1 context (is_webgl2 = false),
create_vertex_array is not a complete no-op — it changes the context state
(the Resource Table gains a placeholder entry and the handle counter
advances). -/
theorem webgl1_create_vertex_array_cex :
    ((GLContext.initial false).create_vertex_array).1 ≠ GLContext.initial false := by
  decide

/-- C3 amended: on a WebGL1 context the gated operations perform no
underlying GL call and raise no error; tex_parameteri with the
texture-wrap-R parameter, draw_buffer, and bind_vertex_array (on a live
handle) leave all context state unchanged; create_vertex_array, however,
still inserts a placeholder entry into the Resource Table under a fresh
handle and increments the handle counter, and delete_vertex_array still
removes the handle's entry. -/
theorem webgl1_capability_gating (s : GLContext) (hw : s.is_webgl2 = false)
    (bufs : List Nat) (h : Int) (v : JsVal)
    (hv : s.get h = some v) :
    s.tex_parameteri .TextureWrapR = (s, []) ∧
    s.draw_buffer bufs = (s, []) ∧
    s.bind_vertex_array h = some (s, []) ∧
    s.create_vertex_array = ((s.add .num).1, s.seq, []) ∧
    countKey (s.add .num).1 s.seq = 1 ∧
    (s.add .num).1.seq = s.seq + 1 ∧
    ∀ h2 : Int, s.delete_vertex_array h2 = some (s.remove h2, []) := by
  refine ⟨?_, ?_, ?_, ?_, countKey_add_self s .num, add_seq s .num, ?_⟩
  · simp [GLContext.tex_parameteri, hw]
  · simp [GLContext.draw_buffer, hw]
  · simp [GLContext.bind_vertex_array, hv, hw]
  · simp [GLContext.create_vertex_array, hw, add_ret]
  · intro h2
    simp [GLContext.delete_vertex_array, hw]

/-- C3 witness: a concrete WebGL1 context with one live vertex-array handle,
evaluated through the amended gating statement. -/
theorem webgl1_capability_gating_witness :
    (GLContext.tex_parameteri ⟨false, [(1, .num)], 2⟩ .TextureWrapR
        = (⟨false, [(1, .num)], 2⟩, [])) ∧
      (GLContext.bind_vertex_array ⟨false, [(1, .num)], 2⟩ 1
        = some (⟨false, [(1, .num)], 2⟩, [])) := by
  have hmain := webgl1_capability_gating ⟨false, [(1, .num)], 2⟩ (by decide)
    [] 1 .num (by decide)
  exact ⟨hmain.1, hmain.2.2.1⟩

/-- C9: browser get_uniform_location allocates a fresh Resource Table entry
with a new handle on every successful call — the returned handle is the
current counter value, the counter advances, the entry count at the new
handle is exactly one, a second successful lookup (after any successful
call sequence, even for the same name and program) returns a distinct
handle, and no well-typed call sequence of the public interface ever
removes a uniform-location entry. -/
theorem uniform_location_fresh_and_persistent
    (s s1 s2 s3 : GLContext) (p1 p2 : Int) (r1 r2 : Option Int)
    (mid : List GLOp) (hw : Wf s)
    (h1 : step s (.getUniformLoc p1 true) = some (s1, r1))
    (h2 : runOps s1 mid = some s2)
    (h3 : step s2 (.getUniformLoc p2 true) = some (s3, r2)) :
    r1 = some s.seq ∧ s1.seq = s.seq + 1 ∧ countKey s1 s.seq = 1 ∧
    s1.get s.seq = some .uniformLoc ∧ r1 ≠ r2 ∧
    ∀ ops s4, wellTypedFrom s1 ops → runOps s1 ops = some s4 →
      s4.get s.seq = some .uniformLoc := by
  obtain ⟨hv1, hr1⟩ := step_getUniformLoc_true h1
  obtain ⟨hv2, hr2⟩ := step_getUniformLoc_true h3
  subst hv1
  have hseq1 : (s.add .uniformLoc).1.seq = s.seq + 1 := add_seq s .uniformLoc
  have hmono := (runOps_wf_seq mid _ s2 h2).2
  have hne : r1 ≠ r2 := by
    rw [hr1, hr2]
    intro hcontra
    have heq : s.seq = s2.seq := by simpa using hcontra
    rw [hseq1] at hmono
    omega
  refine ⟨hr1, hseq1, countKey_add_self s .uniformLoc,
    get_add_self s .uniformLoc, hne, ?_⟩
  intro ops s4 hwt hrun
  exact runOps_uniform_persist ops _ s4 s.seq (wf_add s .uniformLoc hw)
    (get_add_self s .uniformLoc) hwt hrun

/-- C9 witness: two lookups of the same uniform in the same program with a
buffer creation in between return the distinct handles 2 and 4, and the
first entry persists. -/
theorem uniform_location_fresh_and_persistent_witness :
    (some 2 : Option Int) ≠ some 4 ∧
      countKey ⟨true, [(2, .uniformLoc), (1, .program)], 3⟩ 2 = 1 ∧
      GLContext.get ⟨true, [(2, .uniformLoc), (1, .program)], 3⟩ 2
        = some .uniformLoc := by
  have hmain := uniform_location_fresh_and_persistent
    ⟨true, [(1, .program)], 2⟩ ⟨true, [(2, .uniformLoc), (1, .program)], 3⟩
    ⟨true, [(3, .buffer), (2, .uniformLoc), (1, .program)], 4⟩
    ⟨true, [(4, .uniformLoc), (3, .buffer), (2, .uniformLoc), (1, .program)], 5⟩
    1 1 (some 2) (some 4) [.createBuffer]
    (by simp [Wf]) (by decide) (by decide) (by decide)
  exact ⟨hmain.2.2.2.2.1, hmain.2.2.1, hmain.2.2.2.1⟩

end Web

/-- C4: fatality asymmetry — on the native backend a false compile/link
status flag makes compile_shader and link_program halt with the fetched
diagnostic log as the panic payload, while on the browser backend the same
status check prints the fetched diagnostic log but the call returns
normally with the context unchanged. -/
theorem compile_link_fatality_asymmetry (s : Web.GLContext) (sh p : Int)
    (vs vp : Web.JsVal) (log : String) (err : Nat)
    (hsh : s.get sh = some vs) (hp : s.get p = some vp) :
    Native.compile_shader false log err = Except.error log ∧
    Native.link_program false log err = Except.error log ∧
    s.compile_shader sh false log = some (s, ["Error in shader compilation :", log]) ∧
    s.link_program p false log = some (s, ["ERROR while linking program :", log]) := by
  refine ⟨rfl, rfl, ?_, ?_⟩
  · simp [Web.GLContext.compile_shader, hsh]
  · simp [Web.GLContext.link_program, hp]

/-- C4 witness: a failed compile halts natively with the log but returns
normally on the browser backend. -/
theorem compile_link_fatality_asymmetry_witness :
    Native.compile_shader false "syntax error" 0 = Except.error "syntax error" ∧
    Web.GLContext.compile_shader ⟨true, [(2, .program), (1, .shader)], 3⟩ 1 false
        "syntax error"
      = some (⟨true, [(2, .program), (1, .shader)], 3⟩,
          ["Error in shader compilation :", "syntax error"]) := by
  have hmain := compile_link_fatality_asymmetry
    ⟨true, [(2, .program), (1, .shader)], 3⟩ 1 2 .shader .program "syntax error" 0
    (by decide) (by decide)
  exact ⟨hmain.1, hmain.2.2.1⟩

/-- C5: on both backends get_attrib_location and get_uniform_location return
an absent result exactly when the underlying lookup reports not-found (-1
from the location query, or a null object from the browser uniform lookup),
and Some location otherwise — never a fabricated handle and never a
failure. -/
theorem location_lookup_absent (s : Web.GLContext) (prog : Int) (v : Web.JsVal)
    (hprog : s.get prog = some v) (loc : Int) (name : String)
    (hloc : loc ≠ -1) :
    Native.get_attrib_location (-1) NO_ERROR = Except.ok none ∧
    Native.get_attrib_location loc NO_ERROR = Except.ok (some (u32_of_i32 loc)) ∧
    Native.get_uniform_location name (-1) NO_ERROR = Except.ok none ∧
    Native.get_uniform_location name loc NO_ERROR
      = Except.ok (some ⟨u32_of_i32 loc, name⟩) ∧
    s.get_attrib_location prog (-1) NO_ERROR name = some (none, []) ∧
    s.get_attrib_location prog loc NO_ERROR name
      = some (some (u32_of_i32 loc), []) ∧
    s.get_uniform_location prog false = some (s, none) ∧
    s.get_uniform_location prog true = some ((s.add .uniformLoc).1, some s.seq) := by
  refine ⟨rfl, ?_, rfl, ?_, ?_, ?_, ?_, ?_⟩
  · simp [Native.get_attrib_location, Native.check_gl_error, hloc]
  · simp [Native.get_uniform_location, Native.check_gl_error, hloc]
  · simp [Web.GLContext.get_attrib_location, hprog, Web.check_error]
  · simp [Web.GLContext.get_attrib_location, hprog, Web.check_error, hloc]
  · simp [Web.GLContext.get_uniform_location, hprog]
  · simp [Web.GLContext.get_uniform_location, hprog, Web.add_ret]

/-- C5 witness: the not-found result is absent and a found uniform yields a
stored location on a concrete context. -/
theorem location_lookup_absent_witness :
    Native.get_attrib_location (-1) NO_ERROR = Except.ok none ∧
    Native.get_attrib_location 5 NO_ERROR = Except.ok (some 5) ∧
    Web.GLContext.get_uniform_location ⟨true, [(1, .program)], 2⟩ 1 true
      = some (⟨true, [(2, .uniformLoc), (1, .program)], 3⟩, some 2) := by
  have hmain := location_lookup_absent ⟨true, [(1, .program)], 2⟩ 1 .program
    (by decide) 5 "color" (by decide)
  exact ⟨hmain.1, hmain.2.1, hmain.2.2.2.2.2.2.2⟩

/-- C6: browser tex_image2d — with an empty pixel payload and the
depth-component pixel format the internal format passed to the underlying
call is the 16-bit depth-storage code DEPTH_COMPONENT16, which differs from
the requested format code; for every other format with an empty payload,
and for every call with a non-empty payload, the internal format equals the
requested format; the format argument itself is always the requested one. -/
theorem tex_image2d_internal_format (target level width height pk : Nat)
    (format : PixelFormat) (pixels : List Nat) :
    (pixels.length = 0 → format = PixelFormat.DepthComponent →
      (Web.GLContext.tex_image2d target level width height format pk
          pixels).internal_format = DEPTH_COMPONENT16 ∧
        DEPTH_COMPONENT16 ≠ PixelFormat.code format) ∧
    (pixels.length = 0 → format ≠ PixelFormat.DepthComponent →
      (Web.GLContext.tex_image2d target level width height format pk
        pixels).internal_format = PixelFormat.code format) ∧
    (pixels.length > 0 →
      (Web.GLContext.tex_image2d target level width height format pk
        pixels).internal_format = PixelFormat.code format) ∧
    (Web.GLContext.tex_image2d target level width height format pk
      pixels).format = PixelFormat.code format := by
  cases pixels with
  | nil =>
    refine ⟨?_, ?_, ?_, rfl⟩
    · intro _ hfmt
      subst hfmt
      exact ⟨rfl, by decide⟩
    · intro _ hfmt
      cases format with
      | DepthComponent => exact absurd rfl hfmt
      | Rgb => rfl
      | Rgba => rfl
      | Alpha => rfl
      | Luminance => rfl
      | LuminanceAlpha => rfl
    · intro hpos
      exact absurd hpos (by simp)
  | cons a t =>
    refine ⟨?_, ?_, by intro _; simp [Web.GLContext.tex_image2d],
      by simp [Web.GLContext.tex_image2d]⟩
    · intro h0 _
      simp at h0
    · intro h0 _
      simp at h0

/-- C6 witness: an empty-payload depth texture allocation passes
DEPTH_COMPONENT16 (33189) in place of the requested depth-component code
(6402). -/
theorem tex_image2d_internal_format_witness :
    (Web.GLContext.tex_image2d 3553 0 256 256 PixelFormat.DepthComponent 5125
        []).internal_format = DEPTH_COMPONENT16 ∧
      DEPTH_COMPONENT16 ≠ PixelFormat.code PixelFormat.DepthComponent :=
  (tex_image2d_internal_format 3553 0 256 256 5125 PixelFormat.DepthComponent []).1
    rfl rfl

/-- C7 counterexample: the native backend maps the
invalid-framebuffer-operation error code to "unknown error", not to the
symbolic reason "invalid framebuffer operation" the claim requires. -/
theorem native_error_reason_cex :
    Native.glErrorReason INVALID_FRAMEBUFFER_OPERATION
      ≠ "invalid framebuffer operation" := by
  decide

/-- C7 amended: the native post-call check panics exactly when the error
register holds a nonzero code, with a message naming the failing operation
and the symbolic reason; invalid enum, invalid operation, invalid value,
out of memory, stack overflow and stack underflow map to their reasons, and
every other code — including the invalid-framebuffer-operation code — is
reported as "unknown error". -/
theorem native_error_policy (msg : String) (err : Nat) :
    Native.check_gl_error msg NO_ERROR = none ∧
    (err ≠ NO_ERROR → Native.check_gl_error msg err =
      some ("GLError: " ++ msg ++ " " ++ toString err ++ " ("
        ++ Native.glErrorReason err ++ ")")) ∧
    Native.glErrorReason INVALID_ENUM = "invalid enum" ∧
    Native.glErrorReason INVALID_OPERATION = "invalid operation" ∧
    Native.glErrorReason INVALID_VALUE = "invalid value" ∧
    Native.glErrorReason OUT_OF_MEMORY = "out of memory" ∧
    Native.glErrorReason STACK_OVERFLOW = "stack overflow" ∧
    Native.glErrorReason STACK_UNDERFLOW = "stack underflow" ∧
    Native.glErrorReason INVALID_FRAMEBUFFER_OPERATION = "unknown error" ∧
    (err ∉ [INVALID_ENUM, INVALID_OPERATION, INVALID_VALUE,
        OUT_OF_MEMORY, STACK_OVERFLOW, STACK_UNDERFLOW] →
      Native.glErrorReason err = "unknown error") := by
  refine ⟨rfl, ?_, rfl, rfl, rfl, rfl, rfl, rfl, rfl, ?_⟩
  · intro hnz
    simp only [Native.check_gl_error, if_pos hnz]
  · intro hnot
    have hne : err ≠ INVALID_ENUM ∧ err ≠ INVALID_OPERATION ∧ err ≠ INVALID_VALUE
        ∧ err ≠ OUT_OF_MEMORY ∧ err ≠ STACK_OVERFLOW ∧ err ≠ STACK_UNDERFLOW := by
      simpa using hnot
    obtain ⟨n1, n2, n3, n4, n5, n6⟩ := hne
    simp only [Native.glErrorReason, if_neg n1, if_neg n2, if_neg n3, if_neg n4,
      if_neg n5, if_neg n6]

/-- C7 amended witness: the post-call check surfaces a diagnostic with the
operation name and the matching reason both at a listed code (invalid enum)
and at the invalid-framebuffer-operation code, which is reported as
"unknown error". -/
theorem native_error_policy_witness :
    Native.check_gl_error "tex_image2d" INVALID_ENUM =
      some ("GLError: " ++ "tex_image2d" ++ " " ++ toString INVALID_ENUM
        ++ " (" ++ Native.glErrorReason INVALID_ENUM ++ ")") ∧
    Native.glErrorReason INVALID_ENUM = "invalid enum" ∧
    Native.check_gl_error "draw_arrays" INVALID_FRAMEBUFFER_OPERATION =
      some ("GLError: " ++ "draw_arrays" ++ " "
        ++ toString INVALID_FRAMEBUFFER_OPERATION ++ " ("
        ++ Native.glErrorReason INVALID_FRAMEBUFFER_OPERATION ++ ")") ∧
    Native.glErrorReason INVALID_FRAMEBUFFER_OPERATION = "unknown error" := by
  have h1 := native_error_policy "tex_image2d" INVALID_ENUM
  have h2 := native_error_policy "draw_arrays" INVALID_FRAMEBUFFER_OPERATION
  exact ⟨h1.2.1 (by decide), h1.2.2.1, h2.2.1 (by decide),
    h2.2.2.2.2.2.2.2.2.1⟩

/-- C8: the square matrix uniform setters transmit, identically on both
backends, the row-major flattening of the N by N grid: exactly N*N values
with element [i][j] at flat index N*i+j, the index map being an
order-preserving bijection between grid positions and flat indices — so a
4 by 4 identity matrix is transmitted as the same 16 values in the same
order. -/
theorem uniform_matrix_flattening (α : Type) (m2 : Fin 2 → Fin 2 → α)
    (m3 : Fin 3 → Fin 3 → α) (m4 : Fin 4 → Fin 4 → α) :
    Web.uniform_matrix_2fv m2 = Native.uniform_matrix_2fv m2 ∧
    Web.uniform_matrix_3fv m3 = Native.uniform_matrix_3fv m3 ∧
    Web.uniform_matrix_4fv m4 = Native.uniform_matrix_4fv m4 ∧
    (Web.uniform_matrix_2fv m2).length = 2 * 2 ∧
    (Web.uniform_matrix_3fv m3).length = 3 * 3 ∧
    (Web.uniform_matrix_4fv m4).length = 4 * 4 ∧
    (∀ i j : Fin 2,
      (Web.uniform_matrix_2fv m2).get? (2 * i.val + j.val) = some (m2 i j)) ∧
    (∀ i j : Fin 3,
      (Web.uniform_matrix_3fv m3).get? (3 * i.val + j.val) = some (m3 i j)) ∧
    (∀ i j : Fin 4,
      (Web.uniform_matrix_4fv m4).get? (4 * i.val + j.val) = some (m4 i j)) ∧
    (∀ i j k l : Fin 4, 4 * i.val + j.val = 4 * k.val + l.val → i = k ∧ j = l) ∧
    (∀ i j k l : Fin 4, (i.val < k.val ∨ (i = k ∧ j.val < l.val)) →
      4 * i.val + j.val < 4 * k.val + l.val) := by
  refine ⟨rfl, rfl, rfl, rfl, rfl, rfl, ?_, ?_, ?_, ?_, ?_⟩
  · intro i j
    fin_cases i <;> fin_cases j <;> rfl
  · intro i j
    fin_cases i <;> fin_cases j <;> rfl
  · intro i j
    fin_cases i <;> fin_cases j <;> rfl
  · decide
  · decide

/-- C10: draw_arrays on both backends always passes a starting vertex index
of 0 to the underlying API; the call takes only a mode and a count, so the
public interface gives the caller no way to begin at a nonzero first
vertex. -/
theorem draw_arrays_first_zero (mode count : Nat) :
    Web.draw_arrays mode count = ⟨mode, 0, i32_of_nat count⟩ ∧
    Native.draw_arrays mode count = ⟨mode, 0, i32_of_nat count⟩ ∧
    (Web.draw_arrays mode count).first = 0 ∧
    (Native.draw_arrays mode count).first = 0 :=
  ⟨rfl, rfl, rfl, rfl⟩

end UniGLSpec
